import Mathlib

/-!
Verification development for the MetaTrimX diagnostic / classification core.

The definitions below are a shallow embedding of the Python sources:
  * `core/metatrimx_core.py`    — structural scanner (`scan_file_structure`),
    scan-report export (`export_scan_data_to_json`), strategy selection
    (`scan_raw_data` / `main`);
  * `core/metatrimx_compiler.py` — parameter predictor (`consult_brain`);
  * `core/metatrimx_neural.py`  — ensemble classifier (`run_hybrid_engine`,
    `run_ai_classification`).

Strings are modelled as `List Char`, file contents as `Option (List (List Char))`
(`none` = missing/unreadable file, otherwise the list of lines with the
trailing newline removed), Python `Counter`s as insertion-ordered association
lists, Python floats as `ℚ` (predictor) or `ℝ` (classifier scores), and
fallible operations as `Except String`.
-/

set_option autoImplicit false

namespace MetaTrimX

/-! ### Python string primitives -/

/-- Characters removed by Python `str.strip()` (ASCII whitespace). -/
def pyWS (c : Char) : Bool :=
  c = ' ' || c = '\t' || c = '\n' || c = '\r' || c = '\x0b' || c = '\x0c'

/-- Python `str.strip()`. -/
def pyStrip (l : List Char) : List Char :=
  ((l.dropWhile pyWS).reverse.dropWhile pyWS).reverse

/-- First index at which `needle` occurs in the haystack, if any. -/
def subIdx? (needle : List Char) : List Char → Option Nat
  | [] => if needle = [] then some 0 else none
  | c :: t => if needle.isPrefixOf (c :: t) then some 0 else (subIdx? needle t).map (· + 1)

/-- Python `str.find`: first index of `needle` in `hay`, or `-1`. -/
def strFind (hay needle : List Char) : Int :=
  match subIdx? needle hay with
  | some i => (i : Int)
  | none => -1

/-! ### Histograms (Python `collections.Counter`, insertion ordered) -/

/-- A `Counter`: association list from offset to count, in insertion order. -/
abbrev Hist := List (Int × Nat)

/-- `ctr[k] += 1` on a `Counter`. -/
def histInc : Hist → Int → Hist
  | [], k => [(k, 1)]
  | (k', n) :: t, k => if k' = k then (k', n + 1) :: t else (k', n) :: histInc t k

/-- `ctr[k]` on a `Counter` (0 when absent). -/
def histCount : Hist → Int → Nat
  | [], _ => 0
  | (k', n) :: t, k => if k' = k then n else histCount t k

/-- The keys present in a histogram. -/
def histKeys (h : Hist) : List Int := h.map Prod.fst

/-- `Counter.most_common(1)`: an entry of maximal count, earliest-inserted
entry winning ties, or `none` for an empty counter. -/
def mostCommon1 : Hist → Option (Int × Nat)
  | [] => none
  | (k, n) :: t =>
    match mostCommon1 t with
    | none => some (k, n)
    | some (k', n') => if n < n' then some (k', n') else some (k, n)

/-! ### Structural Scanner (`scan_file_structure`) -/

/-- Per-sample position and gap histograms (`stats_pos` / `stats_gap`). -/
structure ScanState where
  pos : String → Hist
  gap : String → Hist

/-- Fresh scan state: every sample has empty histograms. -/
def scanInit : ScanState := ⟨fun _ => [], fun _ => []⟩

/-- Point update of one sample's histogram. -/
def updHist (f : String → Hist) (sid : String) (k : Int) : String → Hist :=
  fun s => if s = sid then histInc (f s) k else f s

/-- One insertion into a Python dict comprehension: replace the value in place
if the key exists, else append. -/
def dictUpd : List (List Char × String) → List Char → String → List (List Char × String)
  | [], k, v => [(k, v)]
  | (k', v') :: t, k, v => if k' = k then (k, v) :: t else (k', v') :: dictUpd t k v

/-- `tag_to_sample = {s[1].upper(): s[0] for s in samples_list}`, traversed in
key-insertion order (this is also `check_tags` order). -/
def buildTagDict (samples_list : List (String × List Char)) : List (List Char × String) :=
  samples_list.foldl (fun d s => dictUpd d (s.2.map Char.toUpper) s.1) []

/-- Primer seed generation: only primers of length ≥ 12 contribute, giving the
pair (first 6 bases, bases 7–12), both uppercased. -/
def mkSeeds (primer_list : List (List Char)) : List (List Char × List Char) :=
  primer_list.filterMap fun p =>
    if p ≠ [] ∧ 12 ≤ p.length then
      some ((p.take 6).map Char.toUpper, ((p.drop 6).take 6).map Char.toUpper)
    else none

/-- Raw gap offset from one seed pair: `gap_idx = window.find(sa)`, and if seed
A is absent but seed B is found, `gap_idx = window.find(sb) - 6`. -/
def seedGapIdx (window sa sb : List Char) : Int :=
  let gA := strFind window sa
  if gA = -1 then
    let mB := strFind window sb
    if mB ≠ -1 then mB - 6 else -1
  else gA

/-- Loop over all primer seeds: the first seed whose raw offset is valid
(`gap_idx != -1 and gap_idx >= -5`) yields `max 0 gap_idx`. -/
def findGap : List (List Char × List Char) → List Char → Option Int
  | [], _ => none
  | (sa, sb) :: rest, w =>
    let g := seedGapIdx w sa sb
    if g ≠ -1 ∧ -5 ≤ g then some (max 0 g) else findGap rest w

/-- Loop over `check_tags` for one sampled read: the first tag found in the
leading region at offset ≤ 10 records its position and exactly one gap
observation (the found gap, else the sentinel `-1`), then breaks. -/
def scanTags (seeds : List (List Char × List Char)) (region : List Char) :
    List (List Char × String) → ScanState → ScanState
  | [], st => st
  | (tag, sid) :: rest, st =>
    let tp := strFind region tag
    if tp ≠ -1 ∧ tp ≤ 10 then
      ⟨updHist st.pos sid tp,
       updHist st.gap sid
         ((findGap seeds ((region.drop (tp.toNat + tag.length)).take 30)).getD (-1))⟩
    else scanTags seeds region rest st

/-- Process one sequence line: `seq = line.strip().upper()`, scanned over its
first 60 bases. -/
def scanRead (td : List (List Char × String)) (seeds : List (List Char × List Char))
    (line : List Char) (st : ScanState) : ScanState :=
  scanTags seeds (((pyStrip line).map Char.toUpper).take 60) td st

/-- Stream the file line by line: lines with index `i % 4 = 1` are sequence
lines; after every line the 10000-read budget is checked. -/
def scanLines (td : List (List Char × String)) (seeds : List (List Char × List Char)) :
    List (List Char) → Nat → Nat → ScanState → ScanState × Nat
  | [], _, checked, st => (st, checked)
  | l :: rest, i, checked, st =>
    if i % 4 = 1 then
      if 10000 ≤ checked + 1 then (scanRead td seeds l st, checked + 1)
      else scanLines td seeds rest (i + 1) (checked + 1) (scanRead td seeds l st)
    else
      if 10000 ≤ checked then (st, checked)
      else scanLines td seeds rest (i + 1) checked st

/-- `scan_file_structure`: a missing/unreadable file is swallowed by the
`try/except` and leaves the histograms untouched with 0 reads checked. -/
def scan_file_structure (file : Option (List (List Char)))
    (samples_list : List (String × List Char)) (primer_list : List (List Char))
    (st : ScanState) : ScanState × Nat :=
  match file with
  | none => (st, 0)
  | some lines => scanLines (buildTagDict samples_list) (mkSeeds primer_list) lines 0 0 st

/-- One sample's entry of the exported scan report (`export_scan_data_to_json`). -/
structure ScanExport where
  tag : List Char
  tag_shift_mode : Int
  primer_gap_mode : Int
  raw_pos_counts : Hist
  raw_gap_counts : Hist

/-- Build one sample's scan-report entry: dominant shift defaults to 0 and
dominant gap to -1 when the respective histogram is empty. -/
def export_scan_entry (st : ScanState) (sid : String) (tag : List Char) : ScanExport :=
  { tag := tag
    tag_shift_mode := ((mostCommon1 (st.pos sid)).map Prod.fst).getD 0
    primer_gap_mode := ((mostCommon1 (st.gap sid)).map Prod.fst).getD (-1)
    raw_pos_counts := st.pos sid
    raw_gap_counts := st.gap sid }

/-! ### Strategy Selector (`scan_raw_data` / `main`) -/

/-- Per-sample processing mode. -/
inductive Strategy where
  | strict
  | universal
  | rescue
deriving DecidableEq, Repr

/-- The externally supplied menu selection `[1/2/3]` of `scan_raw_data`
(inputs other than "1"/"2"/"3" loop until a valid one arrives). -/
inductive MenuChoice where
  | one
  | two
  | three
deriving DecidableEq, Repr

/-- Menu selection to mode: 1 → strict, 2 → universal, 3 → rescue. -/
def strategyOfChoice : MenuChoice → Strategy
  | .one => .strict
  | .two => .universal
  | .three => .rescue

/-- The decision returned by `scan_raw_data`: one mode for every sample. -/
def scan_decision (samples_list : List (String × List Char)) (choice : MenuChoice) :
    List (String × Strategy) :=
  samples_list.map fun s => (s.1, strategyOfChoice choice)

/-- `main`'s strategy assignment: diagnosis enabled defers to `scan_raw_data`,
otherwise every sample is `strict`. -/
def assign_strategies (autoDiagnose : Bool) (choice : MenuChoice)
    (samples_list : List (String × List Char)) : List (String × Strategy) :=
  if autoDiagnose then scan_decision samples_list choice
  else samples_list.map fun s => (s.1, Strategy.strict)

/-! ### Parameter Predictor (`consult_brain`) -/

/-- Python `int()` on a rational: truncation toward zero. -/
def truncInt (q : ℚ) : Int := q.num.tdiv (q.den : Int)

/-- Round to the nearest integer, ties to even (Python `round`). -/
def roundHalfEven (q : ℚ) : Int :=
  let f := q.floor
  let r := q - (f : ℚ)
  if r < 1 / 2 then f
  else if (1 / 2 : ℚ) < r then f + 1
  else if f % 2 = 0 then f else f + 1

/-- Python `round(q, ndigits)`. -/
def pyRound (q : ℚ) (ndigits : Nat) : ℚ :=
  (roundHalfEven (q * (10 : ℚ) ^ ndigits) : ℚ) / (10 : ℚ) ^ ndigits

/-- The 7-parameter prescription returned by `consult_brain`. -/
structure Prescription where
  demux_error_rate : ℚ
  trim_error_rate : ℚ
  merge_max_diffs : Int
  max_expected_errors : ℚ
  min_length : Int
  quality_cutoff : Int
  min_overlap : Int
deriving DecidableEq, Repr

/-- The fixed fallback prescription `(0.15, 0.2, 10, 2.0, 50, 20, 10)`. -/
def defaultPrescription : Prescription :=
  { demux_error_rate := 0.15
    trim_error_rate := 0.2
    merge_max_diffs := 10
    max_expected_errors := 2.0
    min_length := 50
    quality_cutoff := 20
    min_overlap := 10 }

/-- The loaded regression artifact: inference on `[q30, shift, gap, length]`
yielding one output row, or raising. -/
abbrev BrainModel := ℚ → ℚ → ℚ → ℚ → Except String (List ℚ)

/-- `consult_brain`: `none` = artifact file absent, `some (.error _)` =
`joblib.load` raised, an inference `.error` or an output row with fewer than 7
entries (`IndexError`) are caught by the surrounding `except`; every failure
returns the defaults.  A successful row is rounded/cast per field. -/
def consult_brain (brainFile : Option (Except String BrainModel))
    (q30 shift gap length : ℚ) : Prescription :=
  match brainFile with
  | none => defaultPrescription
  | some (.error _) => defaultPrescription
  | some (.ok model) =>
    match model q30 shift gap length with
    | .error _ => defaultPrescription
    | .ok (p0 :: p1 :: p2 :: p3 :: p4 :: p5 :: p6 :: _) =>
      { demux_error_rate := pyRound p0 2
        trim_error_rate := pyRound p1 2
        merge_max_diffs := truncInt p2
        max_expected_errors := pyRound p3 1
        min_length := truncInt p4
        quality_cutoff := truncInt p5
        min_overlap := truncInt p6 }
    | .ok _ => defaultPrescription

/-! ### Ensemble Artifact Classifier (`metatrimx_neural.py`)

`RandomForestClassifier`, `OneClassSVM`, `CountVectorizer` and `PCA` are
external scikit-learn collaborators; their per-sequence outputs enter the
embedding as the abstract functions `rfProb` (Path A probability) and
`svmDist` (Path B signed decision distance).  The one piece of their contract
the code depends on for control flow is that `fit(X, y)` raises when `X` and
`y` disagree on the number of samples; `run_hybrid_engine` checks exactly that
shape condition before producing scores. -/

/-- Number of occurrences of a character in a sequence. -/
def countChar (c : Char) (s : List Char) : Nat := (s.filter (fun d => d = c)).length

/-- Shannon entropy of the nucleotide distribution (`calculate_entropy`). -/
noncomputable def calculate_entropy (s : List Char) : ℝ :=
  -(((s.dedup).map fun c =>
      let p : ℝ := (countChar c s : ℝ) / (s.length : ℝ)
      p * Real.logb 2 p)).sum

/-- `extract_features`: `[length, GC fraction, Shannon entropy]` of the
uppercased sequence (GC fraction of the empty sequence is 0). -/
noncomputable def extract_features (s : List Char) : ℝ × ℝ × ℝ :=
  let su := s.map Char.toUpper
  ((su.length : ℝ),
   if su ≠ [] then (((countChar 'G' su + countChar 'C' su : Nat)) : ℝ) / (su.length : ℝ) else 0,
   calculate_entropy su)

/-- `top_limit = max(20, int(len(sequences) * 0.2))`. -/
def top_limit (n : Nat) : Nat := max 20 (n / 5)

/-- Number of rows of Path A's training matrix
`np.concatenate((X_features[:top_limit], X_noise))`: the slice clamps at the
input count, the noise block has one row per input sequence. -/
def xTrainRows (n : Nat) : Nat := min (top_limit n) n + n

/-- Length of Path A's label vector
`np.concatenate((np.ones(top_limit), np.zeros(len(X_noise))))`. -/
def yTrainLen (n : Nat) : Nat := top_limit n + n

/-- Number of synthetic noise negatives: one per input sequence. -/
def pathA_noise_count (n : Nat) : Nat := n

/-- Path A's training matrix `X_train`, given the synthetic noise sequences. -/
noncomputable def pathA_X_train (sequences noise_seqs : List (List Char)) :
    List (ℝ × ℝ × ℝ) :=
  (sequences.take (top_limit sequences.length)).map extract_features ++
    noise_seqs.map extract_features

/-- Path A's label vector `y_train`. -/
noncomputable def pathA_y_train (n : Nat) : List ℝ :=
  List.replicate (top_limit n) 1 ++ List.replicate n 0

/-- Logistic squashing of the SVM decision distance. -/
noncomputable def sigmoid (x : ℝ) : ℝ := 1 / (1 + Real.exp (-x))

/-- The scikit-learn `fit` complaint on mismatched sample counts. -/
def fitErrMsg : String := "Found input variables with inconsistent numbers of samples"

/-- `run_hybrid_engine`: no scikit-learn → empty result; otherwise Path A's
`fit` is reached first and raises when the training matrix and label vector
disagree on sample count; otherwise each id gets the arithmetic mean of its
Path A probability and the logistic-squashed Path B distance. -/
noncomputable def run_hybrid_engine (sklearnAvailable : Bool)
    (sequences ids : List (List Char)) (rfProb svmDist : Nat → ℝ) :
    Except String (List (List Char × ℝ)) :=
  if !sklearnAvailable then .ok []
  else if xTrainRows sequences.length ≠ yTrainLen sequences.length then .error fitErrMsg
  else .ok (ids.enum.map fun ip => (ip.2, (rfProb ip.1 + sigmoid (svmDist ip.1)) / 2))

/-- A FASTA id: the header with every `>` removed, then stripped. -/
def fastaId (header : List Char) : List Char :=
  pyStrip (header.filter fun c => c ≠ '>')

/-- The FASTA parsing loop of `run_ai_classification`, carrying the ids and
sequences accumulated so far plus the pending header and sequence. -/
def parseFastaAux : List (List Char) → List (List Char) → List (List Char) →
    List Char → List Char → List (List Char) × List (List Char)
  | [], ids, seqs, header, cur =>
    if header ≠ [] then (ids ++ [fastaId header], seqs ++ [cur]) else (ids, seqs)
  | l :: rest, ids, seqs, header, cur =>
    if l.take 1 = ['>'] then
      if header ≠ [] then
        parseFastaAux rest (ids ++ [fastaId header]) (seqs ++ [cur]) (pyStrip l) []
      else parseFastaAux rest ids seqs (pyStrip l) []
    else parseFastaAux rest ids seqs header (cur ++ pyStrip l)

/-- Parse a FASTA file into `(ids, sequences)`. -/
def parseFasta (lines : List (List Char)) : List (List Char) × List (List Char) :=
  parseFastaAux lines [] [] [] []

/-- `run_ai_classification`: a missing file or a file with no sequence records
returns the empty mapping; otherwise the hybrid engine runs. -/
noncomputable def run_ai_classification (file : Option (List (List Char)))
    (sklearnAvailable : Bool) (rfProb svmDist : Nat → ℝ) :
    Except String (List (List Char × ℝ)) :=
  match file with
  | none => .ok []
  | some lines =>
    if (parseFasta lines).2 = [] then .ok []
    else run_hybrid_engine sklearnAvailable (parseFasta lines).2 (parseFasta lines).1
      rfProb svmDist

/-! ### Helper lemmas -/

lemma strFind_cases (hay needle : List Char) :
    strFind hay needle = -1 ∨ 0 ≤ strFind hay needle := by
  rcases h : subIdx? needle hay with _ | i
  · left; simp [strFind, h]
  · right; simp [strFind, h]

lemma findGap_getD_cases (seeds : List (List Char × List Char)) (w : List Char) :
    0 ≤ (findGap seeds w).getD (-1) ∨ (findGap seeds w).getD (-1) = -1 := by
  induction seeds with
  | nil => right; rfl
  | cons sd rest ih =>
    obtain ⟨sa, sb⟩ := sd
    by_cases hc : seedGapIdx w sa sb ≠ -1 ∧ -5 ≤ seedGapIdx w sa sb
    · left
      simp only [findGap, if_pos hc, Option.getD_some]
      exact le_max_left 0 _
    · simpa only [findGap, if_neg hc] using ih

lemma histInc_ne_nil (h : Hist) (k : Int) : histInc h k ≠ [] := by
  cases h with
  | nil => simp [histInc]
  | cons p t =>
    obtain ⟨k', n⟩ := p
    by_cases hk : k' = k <;> simp [histInc, hk]

lemma histKeys_histInc (h : Hist) (k0 : Int) :
    histKeys (histInc h k0) = histKeys h ∨ histKeys (histInc h k0) = histKeys h ++ [k0] := by
  induction h with
  | nil => right; simp [histInc, histKeys]
  | cons p t ih =>
    obtain ⟨k', n⟩ := p
    by_cases he : k' = k0
    · left; simp [histInc, he, histKeys]
    · rcases ih with h1 | h1
      · left
        simp only [histInc, if_neg he, histKeys, List.map_cons] at h1 ⊢
        rw [h1]
      · right
        simp only [histInc, if_neg he, histKeys, List.map_cons] at h1 ⊢
        rw [h1]
        rfl

lemma histInc_keys {h : Hist} {k0 k : Int} (hk : k ∈ histKeys (histInc h k0)) :
    k ∈ histKeys h ∨ k = k0 := by
  rcases histKeys_histInc h k0 with h1 | h1 <;> rw [h1] at hk
  · exact Or.inl hk
  · rcases List.mem_append.1 hk with h2 | h2
    · exact Or.inl h2
    · right; simpa using h2

lemma scanTags_cases (seeds : List (List Char × List Char)) (region : List Char) :
    ∀ (td : List (List Char × String)) (st : ScanState),
      scanTags seeds region td st = st ∨
      ∃ sid tp w, 0 ≤ tp ∧ tp ≤ 10 ∧
        scanTags seeds region td st =
          ⟨updHist st.pos sid tp, updHist st.gap sid ((findGap seeds w).getD (-1))⟩
  | [], _ => Or.inl rfl
  | (tag, sid) :: rest, st => by
    by_cases hc : strFind region tag ≠ -1 ∧ strFind region tag ≤ 10
    · right
      refine ⟨sid, strFind region tag,
        (region.drop ((strFind region tag).toNat + tag.length)).take 30, ?_, hc.2, ?_⟩
      · rcases strFind_cases region tag with h | h
        · exact absurd h hc.1
        · exact h
      · simp only [scanTags]
        rw [if_pos hc]
    · rcases scanTags_cases seeds region rest st with h | h
      · left
        simpa only [scanTags, if_neg hc] using h
      · right
        simpa only [scanTags, if_neg hc] using h

lemma scanRead_cases (td : List (List Char × String)) (seeds : List (List Char × List Char))
    (line : List Char) (st : ScanState) :
    scanRead td seeds line st = st ∨
    ∃ sid tp w, 0 ≤ tp ∧ tp ≤ 10 ∧
      scanRead td seeds line st =
        ⟨updHist st.pos sid tp, updHist st.gap sid ((findGap seeds w).getD (-1))⟩ :=
  scanTags_cases seeds (((pyStrip line).map Char.toUpper).take 60) td st

lemma scanRead_point (td : List (List Char × String)) (seeds : List (List Char × List Char))
    (line : List Char) (st : ScanState) (sid : String) :
    ((scanRead td seeds line st).pos sid = st.pos sid ∧
      (scanRead td seeds line st).gap sid = st.gap sid) ∨
    ∃ tp g, (scanRead td seeds line st).pos sid = histInc (st.pos sid) tp ∧
      (scanRead td seeds line st).gap sid = histInc (st.gap sid) g := by
  rcases scanRead_cases td seeds line st with h | ⟨sid0, tp, w, _, _, h⟩
  · rw [h]; exact Or.inl ⟨rfl, rfl⟩
  · rw [h]
    by_cases hs : sid = sid0
    · subst hs
      exact Or.inr ⟨tp, (findGap seeds w).getD (-1), by simp [updHist], by simp [updHist]⟩
    · exact Or.inl ⟨by simp [updHist, hs], by simp [updHist, hs]⟩

lemma scanLines_pos_empty (td : List (List Char × String))
    (seeds : List (List Char × List Char)) :
    ∀ (lines : List (List Char)) (i checked : Nat) (st : ScanState) (sid : String),
      (scanLines td seeds lines i checked st).1.pos sid = [] →
      (scanLines td seeds lines i checked st).1.gap sid = st.gap sid ∧ st.pos sid = []
  | [], _, _, _, _ => fun h => ⟨rfl, h⟩
  | l :: rest, i, checked, st, sid => by
    intro h
    by_cases h4 : i % 4 = 1
    · by_cases hcap : 10000 ≤ checked + 1
      · simp only [scanLines, if_pos h4, if_pos hcap] at h ⊢
        rcases scanRead_point td seeds l st sid with ⟨hp, hg⟩ | ⟨tp, g, hp, hg⟩
        · exact ⟨hg, hp.symm.trans h⟩
        · rw [hp] at h
          exact absurd h (histInc_ne_nil _ _)
      · simp only [scanLines, if_pos h4, if_neg hcap] at h ⊢
        have ih := scanLines_pos_empty td seeds rest (i + 1) (checked + 1)
          (scanRead td seeds l st) sid h
        rcases scanRead_point td seeds l st sid with ⟨hp, hg⟩ | ⟨tp, g, hp, hg⟩
        · exact ⟨ih.1.trans hg, hp.symm.trans ih.2⟩
        · have := ih.2
          rw [hp] at this
          exact absurd this (histInc_ne_nil _ _)
    · by_cases hcap : 10000 ≤ checked
      · simp only [scanLines, if_neg h4, if_pos hcap] at h ⊢
        exact ⟨by simp, h⟩
      · simp only [scanLines, if_neg h4, if_neg hcap] at h ⊢
        exact scanLines_pos_empty td seeds rest (i + 1) checked st sid h

lemma scanRead_gap_sentinel (td : List (List Char × String)) (line : List Char)
    (st : ScanState) (hst : ∀ sid k, k ∈ histKeys (st.gap sid) → k = -1) :
    ∀ sid k, k ∈ histKeys ((scanRead td [] line st).gap sid) → k = -1 := by
  intro sid k hk
  rcases scanRead_cases td [] line st with h | ⟨sid0, tp, w, _, _, h⟩
  · rw [h] at hk
    exact hst sid k hk
  · rw [h] at hk
    by_cases hs : sid = sid0
    · subst hs
      have hk' : k ∈ histKeys (histInc (st.gap sid)
          ((findGap ([] : List (List Char × List Char)) w).getD (-1))) := by
        simpa [updHist] using hk
      rcases histInc_keys hk' with h1 | h1
      · exact hst sid k h1
      · simpa [findGap] using h1
    · have hk' : k ∈ histKeys (st.gap sid) := by simpa [updHist, hs] using hk
      exact hst sid k hk'

lemma scanLines_gap_sentinel (td : List (List Char × String)) :
    ∀ (lines : List (List Char)) (i checked : Nat) (st : ScanState),
      (∀ sid k, k ∈ histKeys (st.gap sid) → k = -1) →
      ∀ sid k, k ∈ histKeys ((scanLines td [] lines i checked st).1.gap sid) → k = -1
  | [], _, _, _ => fun hst => hst
  | l :: rest, i, checked, st => by
    intro hst sid k hk
    by_cases h4 : i % 4 = 1
    · by_cases hcap : 10000 ≤ checked + 1
      · simp only [scanLines, if_pos h4, if_pos hcap] at hk
        exact scanRead_gap_sentinel td l st hst sid k hk
      · simp only [scanLines, if_pos h4, if_neg hcap] at hk
        exact scanLines_gap_sentinel td rest (i + 1) (checked + 1) (scanRead td [] l st)
          (scanRead_gap_sentinel td l st hst) sid k hk
    · by_cases hcap : 10000 ≤ checked
      · simp only [scanLines, if_neg h4, if_pos hcap] at hk
        exact hst sid k hk
      · simp only [scanLines, if_neg h4, if_neg hcap] at hk
        exact scanLines_gap_sentinel td rest (i + 1) checked st hst sid k hk

lemma mkSeeds_eq_nil {primer_list : List (List Char)}
    (hshort : ∀ p ∈ primer_list, p.length < 12) : mkSeeds primer_list = [] := by
  rw [mkSeeds, List.filterMap_eq_nil_iff]
  intro p hp
  have hlen := hshort p hp
  exact if_neg fun hc => absurd hc.2 (by omega)

lemma sigmoid_pos (x : ℝ) : 0 < sigmoid x := by
  unfold sigmoid
  positivity

lemma sigmoid_le_one (x : ℝ) : sigmoid x ≤ 1 := by
  unfold sigmoid
  rw [div_le_one (by positivity)]
  have := Real.exp_pos (-x)
  linarith

/-! ### Claim theorems -/

/-- C1: for every input `(q30, shift, gap, length)`, if the regression model
artifact is absent, or loading the artifact or running inference raises, the
Parameter Predictor returns exactly the default prescription
`(0.15, 0.20, 10, 2.0, 50, 20, 10)`; being a total function, it lets no
exception escape to the caller. -/
theorem consult_brain_fallback_defaults (q30 shift gap length : ℚ)
    (brainFile : Option (Except String BrainModel))
    (h : brainFile = none ∨ (∃ e, brainFile = some (Except.error e)) ∨
      ∃ f e, brainFile = some (Except.ok f) ∧ f q30 shift gap length = Except.error e) :
    consult_brain brainFile q30 shift gap length =
      { demux_error_rate := 0.15, trim_error_rate := 0.20, merge_max_diffs := 10,
        max_expected_errors := 2.0, min_length := 50, quality_cutoff := 20,
        min_overlap := 10 } := by
  have hd : defaultPrescription =
      { demux_error_rate := 0.15, trim_error_rate := 0.20, merge_max_diffs := 10,
        max_expected_errors := 2.0, min_length := 50, quality_cutoff := 20,
        min_overlap := 10 } := by
    simp only [defaultPrescription, Prescription.mk.injEq]
    norm_num
  rcases h with h | ⟨e, h⟩ | ⟨f, e, h, hf⟩ <;> subst h
  · exact hd
  · exact hd
  · rw [consult_brain, hf]
    exact hd

theorem consult_brain_fallback_defaults_witness :
    consult_brain none 0 0 0 0 =
      { demux_error_rate := 0.15, trim_error_rate := 0.20, merge_max_diffs := 10,
        max_expected_errors := 2.0, min_length := 50, quality_cutoff := 20,
        min_overlap := 10 } :=
  consult_brain_fallback_defaults 0 0 0 0 none (Or.inl rfl)

/-- C4: a sample whose scan produced zero tag matches — including a missing or
unreadable read file, which the scanner absorbs rather than raising — is
exported with `tag_shift_mode = 0` and `primer_gap_mode = -1`. -/
theorem scan_zero_matches_exports_defaults (file : Option (List (List Char)))
    (samples_list : List (String × List Char)) (primer_list : List (List Char))
    (sid : String) (tag : List Char)
    (h : (scan_file_structure file samples_list primer_list scanInit).1.pos sid = []) :
    (export_scan_entry (scan_file_structure file samples_list primer_list scanInit).1
      sid tag).tag_shift_mode = 0 ∧
    (export_scan_entry (scan_file_structure file samples_list primer_list scanInit).1
      sid tag).primer_gap_mode = -1 := by
  have hgap : (scan_file_structure file samples_list primer_list scanInit).1.gap sid = [] := by
    cases file with
    | none => rfl
    | some lines =>
      have h' : (scanLines (buildTagDict samples_list) (mkSeeds primer_list)
          lines 0 0 scanInit).1.pos sid = [] := h
      exact (scanLines_pos_empty (buildTagDict samples_list) (mkSeeds primer_list)
        lines 0 0 scanInit sid h').1
  constructor
  · simp [export_scan_entry, h, mostCommon1]
  · simp [export_scan_entry, hgap, mostCommon1]

theorem scan_zero_matches_exports_defaults_witness :
    (scan_file_structure none [("S", ['A', 'A'])] [] scanInit).1.pos "S" = [] ∧
    (export_scan_entry (scan_file_structure none [("S", ['A', 'A'])] [] scanInit).1
      "S" ['A', 'A']).tag_shift_mode = 0 ∧
    (export_scan_entry (scan_file_structure none [("S", ['A', 'A'])] [] scanInit).1
      "S" ['A', 'A']).primer_gap_mode = -1 :=
  ⟨rfl, scan_zero_matches_exports_defaults none [("S", ['A', 'A'])] [] "S" ['A', 'A'] rfl⟩

/-- C5: for every sampled read the scanner touches at most one sample — either
the state is unchanged, or exactly one sample (the first tag found at start
offset ≤ 10) gains one position observation at a key in `[0, 10]` and exactly
one gap observation, whose value is ≥ 0 or the sentinel `-1`. -/
theorem scanner_read_touches_one_sample (td : List (List Char × String))
    (seeds : List (List Char × List Char)) (line : List Char) (st : ScanState) :
    scanRead td seeds line st = st ∨
    ∃ sid tp g, 0 ≤ tp ∧ tp ≤ 10 ∧ (0 ≤ g ∨ g = -1) ∧
      scanRead td seeds line st = ⟨updHist st.pos sid tp, updHist st.gap sid g⟩ := by
  rcases scanRead_cases td seeds line st with h | ⟨sid, tp, w, h0, h10, h⟩
  · exact Or.inl h
  · exact Or.inr ⟨sid, tp, (findGap seeds w).getD (-1), h0, h10,
      findGap_getD_cases seeds w, h⟩

/-- C10: primer seeds are derived only from primers of length ≥ 12 bases; when
no primer reaches 12 bases (including an empty primer list) the seed list is
empty and every key recorded in any sample's gap histogram is the sentinel
`-1` — no non-negative gap is ever observed. -/
theorem short_primers_only_sentinel_gaps (primer_list : List (List Char))
    (file : Option (List (List Char))) (samples_list : List (String × List Char))
    (sid : String) (k : Int)
    (hshort : ∀ p ∈ primer_list, p.length < 12)
    (hk : k ∈ histKeys
      ((scan_file_structure file samples_list primer_list scanInit).1.gap sid)) :
    mkSeeds primer_list = [] ∧ k = -1 := by
  have hs := mkSeeds_eq_nil hshort
  refine ⟨hs, ?_⟩
  cases file with
  | none => simp [scan_file_structure, scanInit, histKeys] at hk
  | some lines =>
    have hk' : k ∈ histKeys ((scanLines (buildTagDict samples_list)
        ([] : List (List Char × List Char)) lines 0 0 scanInit).1.gap sid) := by
      simpa [scan_file_structure, hs] using hk
    exact scanLines_gap_sentinel (buildTagDict samples_list) lines 0 0 scanInit
      (fun _ _ hmem => by simp [scanInit, histKeys] at hmem) sid k hk'

theorem short_primers_only_sentinel_gaps_witness :
    mkSeeds [['A', 'C']] = [] ∧ (-1 : Int) = -1 :=
  short_primers_only_sentinel_gaps [['A', 'C']]
    (some [['@'], ['A', 'A', 'A', 'A'], ['+'], ['I']]) [("S", ['A', 'A', 'A', 'A'])]
    "S" (-1) (by decide) (by decide)

/-- C2 counterexample: in a concrete scan the single primer seed pair
`("ACGTAC", "GGGGGG")` is evaluated on the actual post-tag search window
`"GGGGGGTTTT"`; only seed B matches, yielding the raw gap offset `-6 < -5`,
yet the sample's GapHistogram records the sentinel `-1` once — the raw offset
is not "excluded from the GapHistogram entirely (recorded neither as 0 nor as
the sentinel -1)" as the claim states. -/
theorem gap_below_minus5_records_sentinel_cex :
    seedGapIdx ['G', 'G', 'G', 'G', 'G', 'G', 'T', 'T', 'T', 'T']
      ['A', 'C', 'G', 'T', 'A', 'C'] ['G', 'G', 'G', 'G', 'G', 'G'] = -6 ∧
    histCount ((scan_file_structure
      (some [['@', 'r'],
             ['A', 'A', 'A', 'A', 'G', 'G', 'G', 'G', 'G', 'G', 'T', 'T', 'T', 'T'],
             ['+'], ['I', 'I']])
      [("S", ['A', 'A', 'A', 'A'])]
      [['A', 'C', 'G', 'T', 'A', 'C', 'G', 'G', 'G', 'G', 'G', 'G']]
      scanInit).1.gap "S") (-1) = 1 := by
  decide

/-- C2 amended: raw gap offsets in `[-5, -2]` are recorded as `0`; a seed-B
raw offset of exactly `-1` is rejected as if the seed had not matched (the
code conflates it with `find`'s not-found sentinel); a raw offset `< -5` is
rejected as well; and a tag hit none of whose seeds yields a valid offset
records the sentinel `-1` in the GapHistogram. -/
theorem gap_normalization_amended (w sa sb : List Char) :
    ((-5 ≤ seedGapIdx w sa sb ∧ seedGapIdx w sa sb ≤ -2) →
      (findGap [(sa, sb)] w).getD (-1) = 0) ∧
    (seedGapIdx w sa sb < -5 → (findGap [(sa, sb)] w).getD (-1) = -1) ∧
    (seedGapIdx w sa sb = -1 → (findGap [(sa, sb)] w).getD (-1) = -1) := by
  refine ⟨?_, ?_, ?_⟩
  · rintro ⟨h1, h2⟩
    have hc : seedGapIdx w sa sb ≠ -1 ∧ -5 ≤ seedGapIdx w sa sb := ⟨by omega, h1⟩
    simp only [findGap, if_pos hc, Option.getD_some]
    exact max_eq_left (by omega)
  · intro h1
    have hc : ¬(seedGapIdx w sa sb ≠ -1 ∧ -5 ≤ seedGapIdx w sa sb) := by omega
    simp only [findGap, if_neg hc]
    rfl
  · intro h1
    have hc : ¬(seedGapIdx w sa sb ≠ -1 ∧ -5 ≤ seedGapIdx w sa sb) := by omega
    simp only [findGap, if_neg hc]
    rfl

theorem gap_normalization_amended_witness :
    (findGap [(['A', 'C', 'G', 'T', 'A', 'C'], ['G', 'G', 'G', 'G', 'G', 'G'])]
      ['T', 'G', 'G', 'G', 'G', 'G', 'G']).getD (-1) = 0 :=
  (gap_normalization_amended ['T', 'G', 'G', 'G', 'G', 'G', 'G']
    ['A', 'C', 'G', 'T', 'A', 'C'] ['G', 'G', 'G', 'G', 'G', 'G']).1 (by decide)

/-- C3 counterexample: with 100 input sequences Path A takes the first
`max(20, int(100 * 0.2)) = 20` inputs as positives but synthesizes one noise
negative per input sequence, i.e. 100 of them — not an equal number — so the
training matrix has 120 rows rather than the claimed 20 + 20 = 40. -/
theorem pathA_unequal_negatives_cex :
    top_limit 100 = 20 ∧ pathA_noise_count 100 = 100 ∧
    (pathA_X_train (List.replicate 100 ['A']) (List.replicate 100 ['C'])).length = 120 ∧
    (pathA_X_train (List.replicate 100 ['A']) (List.replicate 100 ['C'])).length ≠
      2 * top_limit 100 := by
  have hlen : (pathA_X_train (List.replicate 100 ['A'])
      (List.replicate 100 ['C'])).length = 120 := by
    simp [pathA_X_train, top_limit]
  exact ⟨by decide, rfl, hlen, by rw [hlen]; decide⟩

/-- C3 amended: Path A's training set consists of the first
`min(n, max(20, int(n * 0.2)))` input sequences (in input order) as positive
feature rows plus `n` synthetic uniform-random 200-base noise sequences as
negative rows — one per input sequence, not an equal number — while the label
vector holds `max(20, int(n * 0.2))` ones followed by `n` zeros. -/
theorem pathA_training_set_amended (sequences noise_seqs : List (List Char))
    (h : noise_seqs.length = sequences.length) :
    (sequences.take (top_limit sequences.length)).length =
      min (top_limit sequences.length) sequences.length ∧
    (pathA_X_train sequences noise_seqs).length =
      min (top_limit sequences.length) sequences.length + sequences.length ∧
    pathA_y_train sequences.length =
      List.replicate (top_limit sequences.length) (1 : ℝ) ++
        List.replicate sequences.length (0 : ℝ) ∧
    (pathA_y_train sequences.length).length = top_limit sequences.length +
      sequences.length := by
  refine ⟨by simp, ?_, rfl, by simp [pathA_y_train]⟩
  simp [pathA_X_train, h]

theorem pathA_training_set_amended_witness :
    (List.replicate 2 (['C'] : List Char)).length =
      (List.replicate 2 (['A'] : List Char)).length ∧
    ((List.replicate 2 (['A'] : List Char)).take
        (top_limit (List.replicate 2 (['A'] : List Char)).length)).length =
      min (top_limit (List.replicate 2 (['A'] : List Char)).length)
        (List.replicate 2 (['A'] : List Char)).length ∧
    (pathA_X_train (List.replicate 2 ['A']) (List.replicate 2 ['C'])).length =
      min (top_limit (List.replicate 2 (['A'] : List Char)).length)
        (List.replicate 2 (['A'] : List Char)).length +
        (List.replicate 2 (['A'] : List Char)).length :=
  ⟨by decide,
   (pathA_training_set_amended (List.replicate 2 ['A']) (List.replicate 2 ['C'])
     (by decide)).1,
   (pathA_training_set_amended (List.replicate 2 ['A']) (List.replicate 2 ['C'])
     (by decide)).2.1⟩

/-- C6: whenever the ensemble engine runs to completion on a non-empty input
whose sequences all have length ≥ k = 5 (and Path A's probabilities respect
the `predict_proba` range contract), each returned score is the arithmetic
mean of the sequence's Path A probability and its logistic-squashed Path B
distance, and every returned score lies in `[0, 1]`. -/
theorem ensemble_mean_scores_bounded (sequences ids : List (List Char))
    (rfProb svmDist : Nat → ℝ) (results : List (List Char × ℝ))
    (hne : sequences ≠ []) (hlen : ∀ s ∈ sequences, 5 ≤ s.length)
    (hrf : ∀ i, 0 ≤ rfProb i ∧ rfProb i ≤ 1)
    (hok : run_hybrid_engine true sequences ids rfProb svmDist = Except.ok results) :
    results = ids.enum.map
      (fun ip => (ip.2, (rfProb ip.1 + sigmoid (svmDist ip.1)) / 2)) ∧
    ∀ r ∈ results, 0 ≤ r.2 ∧ r.2 ≤ 1 := by
  have hres : results = ids.enum.map
      (fun ip => (ip.2, (rfProb ip.1 + sigmoid (svmDist ip.1)) / 2)) := by
    by_cases hx : xTrainRows sequences.length ≠ yTrainLen sequences.length
    · simp [run_hybrid_engine, hx] at hok
    · simp [run_hybrid_engine, hx] at hok
      exact hok.symm
  refine ⟨hres, ?_⟩
  intro r hr
  rw [hres] at hr
  obtain ⟨ip, _, rfl⟩ := List.mem_map.1 hr
  have h1 := hrf ip.1
  have h2 := sigmoid_pos (svmDist ip.1)
  have h3 := sigmoid_le_one (svmDist ip.1)
  constructor
  · show 0 ≤ (rfProb ip.1 + sigmoid (svmDist ip.1)) / 2
    linarith [h1.1]
  · show (rfProb ip.1 + sigmoid (svmDist ip.1)) / 2 ≤ 1
    linarith [h1.2]

theorem ensemble_mean_scores_bounded_witness :
    (List.replicate 20 (List.replicate 5 'A') ≠ ([] : List (List Char))) ∧
    ∀ r ∈ (List.replicate 20 (['x'] : List Char)).enum.map
      (fun ip => (ip.2, ((fun _ : Nat => (1 : ℝ) / 2) ip.1 +
        sigmoid ((fun _ : Nat => (0 : ℝ)) ip.1)) / 2)),
      0 ≤ r.2 ∧ r.2 ≤ 1 :=
  ⟨by decide,
   (ensemble_mean_scores_bounded (List.replicate 20 (List.replicate 5 'A'))
     (List.replicate 20 ['x']) (fun _ => (1 : ℝ) / 2) (fun _ => (0 : ℝ))
     ((List.replicate 20 (['x'] : List Char)).enum.map
       (fun ip => (ip.2, ((fun _ : Nat => (1 : ℝ) / 2) ip.1 +
         sigmoid ((fun _ : Nat => (0 : ℝ)) ip.1)) / 2)))
     (by decide) (by decide) (fun i => by norm_num) (by rfl)).2⟩

/-- C7: classifying an empty input returns an empty result without raising —
a missing candidate file and a file with no sequence records both yield the
empty mapping, and when the optional scikit-learn capability is unavailable
the engine likewise returns a caller-visible empty result. -/
theorem classifier_empty_inputs_empty_result (sklearnAvailable : Bool)
    (rfProb svmDist : Nat → ℝ) (lines : List (List Char)) :
    run_ai_classification none sklearnAvailable rfProb svmDist = Except.ok [] ∧
    ((parseFasta lines).2 = [] →
      run_ai_classification (some lines) sklearnAvailable rfProb svmDist =
        Except.ok []) ∧
    ∀ sequences ids,
      run_hybrid_engine false sequences ids rfProb svmDist = Except.ok [] := by
  refine ⟨rfl, ?_, fun sequences ids => rfl⟩
  intro h
  simp [run_ai_classification, h]

theorem classifier_empty_inputs_empty_result_witness :
    (parseFasta ([] : List (List Char))).2 = [] ∧
    run_ai_classification (some []) true (fun _ => (0 : ℝ)) (fun _ => (0 : ℝ)) =
      Except.ok [] :=
  ⟨rfl,
   (classifier_empty_inputs_empty_result true (fun _ => (0 : ℝ)) (fun _ => (0 : ℝ))
     []).2.1 rfl⟩

/-- C8: when diagnosis is disabled the Strategy Selector assigns `strict` to
every sample; when diagnosis is enabled the mode determined by the external
menu choice is assigned uniformly to all samples in the run. -/
theorem strategy_selection_uniform (autoDiagnose : Bool) (choice : MenuChoice)
    (samples_list : List (String × List Char)) :
    (autoDiagnose = false →
      ∀ e ∈ assign_strategies autoDiagnose choice samples_list,
        e.2 = Strategy.strict) ∧
    (autoDiagnose = true →
      ∀ e ∈ assign_strategies autoDiagnose choice samples_list,
        e.2 = strategyOfChoice choice) := by
  constructor
  · rintro rfl e he
    simp only [assign_strategies, Bool.false_eq_true, if_false] at he
    obtain ⟨s, _, rfl⟩ := List.mem_map.1 he
    rfl
  · rintro rfl e he
    simp only [assign_strategies, if_true, scan_decision] at he
    obtain ⟨s, _, rfl⟩ := List.mem_map.1 he
    rfl

theorem strategy_selection_uniform_witness :
    ∀ e ∈ assign_strategies false MenuChoice.two [("S", ['A', 'C'])],
      e.2 = Strategy.strict :=
  (strategy_selection_uniform false MenuChoice.two [("S", ['A', 'C'])]).1 rfl

/-- C9 (implicit): on a non-empty input of fewer than 20 sequences, Path A's
training matrix has `2 * n` rows while its label vector has `20 + n` entries;
the mismatch is rejected at `fit` time, so the engine raises instead of
returning a score mapping. -/
theorem small_input_fit_mismatch (sequences ids : List (List Char))
    (rfProb svmDist : Nat → ℝ)
    (hne : sequences ≠ []) (hlt : sequences.length < 20) :
    xTrainRows sequences.length = 2 * sequences.length ∧
    yTrainLen sequences.length = 20 + sequences.length ∧
    run_hybrid_engine true sequences ids rfProb svmDist = Except.error fitErrMsg := by
  have hn : 0 < sequences.length := List.length_pos.2 hne
  have htop : top_limit sequences.length = 20 := by
    unfold top_limit
    omega
  have hx : xTrainRows sequences.length = 2 * sequences.length := by
    unfold xTrainRows
    rw [htop]
    omega
  have hy : yTrainLen sequences.length = 20 + sequences.length := by
    unfold yTrainLen
    rw [htop]
  have hne2 : xTrainRows sequences.length ≠ yTrainLen sequences.length := by
    rw [hx, hy]
    omega
  exact ⟨hx, hy, by simp [run_hybrid_engine, hne2]⟩

theorem small_input_fit_mismatch_witness :
    xTrainRows ([['A']] : List (List Char)).length = 2 ∧
    yTrainLen ([['A']] : List (List Char)).length = 21 ∧
    run_hybrid_engine true [['A']] [] (fun _ => (0 : ℝ)) (fun _ => (0 : ℝ)) =
      Except.error fitErrMsg :=
  small_input_fit_mismatch [['A']] [] (fun _ => (0 : ℝ)) (fun _ => (0 : ℝ))
    (by decide) (by decide)

end MetaTrimX
